import Mathlib

/-!
Shallow embedding of the AI-driven-book repository
(Docusaurus front-end with a RAG chatbot) and proofs about it.

The front-end TypeScript under
`frontend/ai-ml-book/src/` is embedded directly; JSON values exchanged with
the `/api/chat` endpoints are modelled by the inductive `Json` below, with
JavaScript `undefined` modelled as `Option.none` where a field may be absent.
The Python backend (chunker, context assembler, rate limiter) is not part of
the source tree; those components are modelled from the specification text and
are marked `Modelled from the spec:` in their doc comments.
-/

namespace Book

/-- JSON values as exchanged by the front-end.  Object fields are kept in
insertion order, as `JSON.parse` and object literals do in JavaScript.
Numbers are modelled as integers (the values flowing through the progress
store and chat payloads are timestamps, counts and scores produced by
`JSON.parse`, all exactly representable). -/
inductive Json where
  | null : Json
  | bool (b : Bool) : Json
  | num (n : Int) : Json
  | str (s : String) : Json
  | arr (elems : List Json) : Json
  | obj (fields : List (String × Json)) : Json

namespace Json

/-- JavaScript truthiness of a JSON value. -/
def truthy : Json → Bool
  | .null => false
  | .bool b => b
  | .num n => n != 0
  | .str s => s != ""
  | .arr _ => true
  | .obj _ => true

/-- `typeof v === 'object'` in JavaScript: true for `null`, arrays and
objects. -/
def typeofObject : Json → Bool
  | .null => true
  | .arr _ => true
  | .obj _ => true
  | _ => false

def isStr : Json → Bool
  | .str _ => true
  | _ => false

def isNum : Json → Bool
  | .num _ => true
  | _ => false

def isArr : Json → Bool
  | .arr _ => true
  | _ => false

/-- Property access `v.k`: `none` models JavaScript `undefined` (absent
field, or access on a non-object value). -/
def getField : Json → String → Option Json
  | .obj l, k => l.lookup k
  | _, _ => none

/-- Object-literal spread `{...j, k: v}`: replace the value of an existing
key in place, or append the key at the end. -/
def setField (j : Json) (k : String) (v : Json) : Json :=
  match j with
  | .obj l =>
      if l.any (fun p => p.1 == k) then
        .obj (l.map (fun p => if p.1 == k then (k, v) else p))
      else
        .obj (l ++ [(k, v)])
  | x => x

/-- Rest destructuring `const {a, b, ...rest} = j`: drop the named keys. -/
def removeFields (j : Json) (ks : List String) : Json :=
  match j with
  | .obj l => .obj (l.filter (fun p => !(ks.contains p.1)))
  | x => x

end Json

/-- JavaScript whitespace as `String.prototype.trim` strips it (the ASCII
whitespace characters; further Unicode space code points do not occur in
the inputs modelled here). -/
def jsWhitespace (c : Char) : Bool :=
  c == ' ' || c == '\t' || c == '\n' || c == '\r'

/-- JavaScript `s.trim()`: strip leading and trailing whitespace. -/
def jsTrim (s : String) : String :=
  List.asString ((((s.data.dropWhile jsWhitespace).reverse).dropWhile jsWhitespace).reverse)

/-! ## Decimal rendering of JavaScript integer timestamps

`'session_' + Date.now()` string-concatenates the millisecond timestamp;
for a non-negative integer the JavaScript runtime renders its decimal
digits.  `natToString` is that rendering, written so injectivity is
provable. -/

/-- Decimal digits of `n`, least significant first. -/
def decDigits (n : Nat) : List (Fin 10) :=
  if h : n < 10 then [⟨n, h⟩]
  else ⟨n % 10, Nat.mod_lt _ (by norm_num)⟩ :: decDigits (n / 10)
decreasing_by exact Nat.div_lt_self (by omega) (by norm_num)

/-- The character of one decimal digit. -/
def digitCh : Fin 10 → Char
  | 0 => '0' | 1 => '1' | 2 => '2' | 3 => '3' | 4 => '4'
  | 5 => '5' | 6 => '6' | 7 => '7' | 8 => '8' | 9 => '9'

/-- Decimal rendering of a natural number, as the JavaScript runtime
prints an integer `Date.now()` value. -/
def natToString (n : Nat) : String :=
  ((decDigits n).reverse.map digitCh).asString

/-! ## Chatbot (frontend/ai-ml-book/src/components/Chatbot/Chatbot.tsx)

`sendChatMessage` POSTs to `/api/chat` and builds the bot message from the
JSON body; `handleSendMessage` appends the user message and either the bot
reply or a fixed apology.  The outcome of the `fetch` call, as the client
observes it, is either a thrown network error (with whatever detail string
the runtime or provider produced) or a response carrying an HTTP-ok flag,
a status code and a parsed JSON body. -/

inductive FetchOutcome where
  | netError (detail : String) : FetchOutcome
  | response (ok : Bool) (status : Nat) (body : Json) : FetchOutcome

/-- Did the `fetch` call fail from the client's point of view (network error
or non-OK HTTP status)?  `sendChatMessage` throws exactly in these cases. -/
def FetchOutcome.failed : FetchOutcome → Bool
  | .netError _ => true
  | .response ok _ _ => !ok

/-- A chat message as the component stores and renders it.  `text` is the
value actually rendered in the message bubble: `none` models `undefined`
(for a success body lacking the expected field), `some (.str s)` a plain
string. -/
structure ChatMsg where
  sender : String
  text : Option Json
  isError : Bool

/-- The request body `sendChatMessage` posts to `/api/chat`
(Chatbot.tsx): `{message, conversation_id: 'session_' + Date.now(),
context_level: 'medium'}`.  `now` is the millisecond timestamp read by
`Date.now()` at send time. -/
def chatRequestBody (message : String) (now : Nat) : Json :=
  .obj [("message", .str message),
        ("conversation_id", .str ("session_" ++ natToString now)),
        ("context_level", .str "medium")]

/-- `sendChatMessage`'s result: on a non-OK status it throws
`HTTP error! status: ...`; on success it builds the bot message whose text
is the body's `response` field (the client reads `data.response`). -/
def sendChatMessage (outcome : FetchOutcome) : Except String ChatMsg :=
  match outcome with
  | .netError d => .error d
  | .response ok status body =>
      if ok then
        .ok { sender := "bot", text := body.getField "response", isError := false }
      else
        .error ("HTTP error! status: " ++ toString status)

/-- The fixed apologetic text of the error-path bot message in
`handleSendMessage`. -/
def apologyText : String :=
  "I apologize, but I'm having trouble connecting right now. Please try again in a moment."

/-- The bot message appended when `sendChatMessage` throws. -/
def apologyMsg : ChatMsg :=
  { sender := "bot", text := some (.str apologyText), isError := true }

/-- The user message appended at the start of a turn (text is the trimmed
input). -/
def userMsg (input : String) : ChatMsg :=
  { sender := "user", text := some (.str (jsTrim input)), isError := false }

/-- `handleSendMessage`'s effect on the message list for one turn: bail out
on empty (trimmed) input or while a reply is pending; otherwise append the
user message and then either the bot reply or the fixed apology message. -/
def handleSendMessage (prev : List ChatMsg) (input : String) (isTyping : Bool)
    (outcome : FetchOutcome) : List ChatMsg :=
  if jsTrim input == "" || isTyping then prev
  else
    match sendChatMessage outcome with
    | .ok botMsg => prev ++ [userMsg input, botMsg]
    | .error _ => prev ++ [userMsg input, apologyMsg]

/-! ## Search page (frontend/ai-ml-book/src/pages/search.tsx)

The results effect of `SearchResults`: an empty query clears the hits; with
a query, if the `window.__docusaurus_search` global is present and exposes a
`search` method it is called (a thrown error shows the error banner, and a
`null` result is collapsed to `[]` by `results || []`); if the global is
present without a `search` method nothing updates the hits; if the global is
absent a fixed mock hit list is shown after a timeout. -/

structure SearchHit where
  objectID : String
  url : String
  title : String
  excerpt : Option String
  lvl0 : Option String
  lvl1 : Option String
  lvl2 : Option String

/-- The hardcoded mock results of the fallback branch. -/
def mockHits : List SearchHit :=
  [{ objectID := "1", url := "/intro",
     title := "Introduction to Machine Learning",
     excerpt := some "Learn the basics of machine learning and AI concepts.",
     lvl0 := some "Book", lvl1 := some "Introduction",
     lvl2 := some "What is Machine Learning?" },
   { objectID := "2", url := "/tutorial/linear-regression",
     title := "Linear Regression Tutorial",
     excerpt := some "Step-by-step guide to implementing linear regression.",
     lvl0 := some "Tutorial", lvl1 := some "Supervised Learning",
     lvl2 := some "Linear Regression" },
   { objectID := "3", url := "/docs/chapter1/linear-algebra",
     title := "Linear Algebra Fundamentals",
     excerpt := some "Essential linear algebra concepts for machine learning.",
     lvl0 := some "Book", lvl1 := some "Chapter 1",
     lvl2 := some "Linear Algebra" }]

/-- The `window.__docusaurus_search` global as the page probes it: absent,
or present with an optional `search` method.  A call of the method either
throws or returns a hit list (`results || []` collapses a `null` return
into the empty list). -/
inductive PluginGlobal where
  | absent : PluginGlobal
  | present (search : Option (String → Except String (List SearchHit))) : PluginGlobal

/-- What the hits state ends up as after the effect for a given query runs:
a hit list, the error banner, or no update at all (plugin present but
without a `search` method). -/
inductive SearchPageOutcome where
  | hits (l : List SearchHit) : SearchPageOutcome
  | errorShown : SearchPageOutcome
  | pending : SearchPageOutcome

/-- The `useEffect` body of `SearchResults` as a function of the query and
the plugin global. -/
def searchPageResults (query : String) (plugin : PluginGlobal) : SearchPageOutcome :=
  if query == "" then .hits []
  else
    match plugin with
    | .absent => .hits mockHits
    | .present none => .pending
    | .present (some f) =>
        match f query with
        | .ok rs => .hits rs
        | .error _ => .errorShown

/-! ## Search component (frontend/ai-ml-book/src/components/Search/Search.tsx)

`handleSearch` bails out on a query that trims to empty (no fetch, results
cleared); otherwise it POSTs `{message, context_level: 'detailed'}` to
`/api/chat/search` and maps `data.results` into the result list (a network
error, a non-OK response, or a throw while mapping leaves the list empty). -/

inductive SearchFetch where
  | netError (detail : String) : SearchFetch
  | response (ok : Bool) (body : Json) : SearchFetch

/-- One formatted result.  Only the `content` access can throw
(`result.content.substring` on a missing or non-string field); the other
fields are kept as the raw JSON they are projected from. -/
structure SearchResultItem where
  source : Json
  excerpt : String

/-- `data.results.map(result => ...)`: `none` models the throw on a missing
or non-string `content` field, which aborts the whole mapping. -/
def fmtResult (j : Json) : Option SearchResultItem :=
  match j.getField "content" with
  | some (.str s) => some { source := j, excerpt := (s.take 200) ++ "..." }
  | _ => none

/-- The result list the component ends up with for a given fetch outcome:
empty on network error, non-OK status, a non-array `results` field, or a
throw while formatting. -/
def searchResultsFrom (outcome : SearchFetch) : List SearchResultItem :=
  match outcome with
  | .netError _ => []
  | .response false _ => []
  | .response true body =>
      match body.getField "results" with
      | some (.arr l) =>
          match l.mapM fmtResult with
          | some rs => rs
          | none => []
      | _ => []

/-- The request body of the `/api/chat/search` POST. -/
def searchRequestBody (query : String) : Json :=
  .obj [("message", .str query), ("context_level", .str "detailed")]

/-- `handleSearch`: the request sent (`none` = no fetch) and the resulting
result list. -/
def handleSearch (query : String) (outcome : SearchFetch) :
    Option Json × List SearchResultItem :=
  if jsTrim query == "" then (none, [])
  else (some (searchRequestBody query), searchResultsFrom outcome)

/-! ## Progress store (`useProgress` hook, `ai_ml_book_progress` localStorage key)

`validateProgressData` normalises an arbitrary parsed JSON value into a
`ProgressData`-shaped object; `loadProgress` wraps it with a catch-all that
falls back to the defaults; `exportProgressData`/`importProgressData`
round-trip the store through a JSON string.

Modelling notes, all observationally neutral for name-based field access:
* `Date.now()` reads are passed in as explicit `now` arguments (one per
  function call).
* JavaScript `delete` on an array element leaves a hole, which
  `Object.keys`, `filter` and the subsequent validated round-trips never
  observe as a value; holes are modelled by dropping the entry.
* `JSON.parse ∘ JSON.stringify` is the identity on the values produced
  here, so storage holds `Json` values directly.
* Object spread in the migration branch changes only key order; the model
  keeps the validated order, and all access is by name. -/

/-- The `defaultProgress` constant (its `lastActivity: Date.now()` read is
the `now` argument). -/
def defaultProgress (now : Int) : Json :=
  .obj [("completedChapters", .arr []),
        ("timeSpent", .obj []),
        ("quizScores", .obj []),
        ("completedSections", .arr []),
        ("lastActivity", .num now),
        ("bookmarks", .arr []),
        ("notes", .obj [])]

/-- `Array.isArray(f) ? f : []` followed by `.filter(x => typeof x === 'string')`. -/
def vStrArray (d : Json) (k : String) : Json :=
  match d.getField k with
  | some (.arr l) => .arr (l.filter Json.isStr)
  | _ => .arr []

/-- `typeof f === 'object' ? f : {}` followed by the
`Object.keys(..).forEach(key => if (typeof f[key] !== 'number') delete f[key])`
loop.  `Object.keys(null)` throws, which `vTable` reports as an error. -/
def vTable (d : Json) (k : String) : Except Unit Json :=
  match d.getField k with
  | some .null => .error ()
  | some (.obj l) => .ok (.obj (l.filter (fun p => p.2.isNum)))
  | some (.arr l) => .ok (.arr (l.filter Json.isNum))
  | some _ => .ok (.obj [])
  | none => .ok (.obj [])

/-- `typeof f === 'number' ? f : Date.now()`. -/
def vLastActivity (now : Int) (d : Json) : Json :=
  match d.getField "lastActivity" with
  | some (.num x) => .num x
  | _ => .num now

/-- `data.exportTimestamp || undefined`: the entry is kept only when the
field is truthy (a property whose value is `undefined` is dropped by
`JSON.stringify` anyway). -/
def vExportTimestamp (d : Json) : List (String × Json) :=
  match d.getField "exportTimestamp" with
  | some v => if v.truthy then [("exportTimestamp", v)] else []
  | none => []

/-- The bookmark filter predicate: `bookmark && typeof bookmark.id ===
'string' && typeof bookmark.chapter === 'string' && typeof bookmark.title
=== 'string'`. -/
def bookmarkOk (b : Json) : Bool :=
  b.truthy
    && (match b.getField "id" with | some (.str _) => true | _ => false)
    && (match b.getField "chapter" with | some (.str _) => true | _ => false)
    && (match b.getField "title" with | some (.str _) => true | _ => false)

/-- `Array.isArray(f) ? f : []` followed by the bookmark filter. -/
def vBookmarks (d : Json) : Json :=
  match d.getField "bookmarks" with
  | some (.arr l) => .arr (l.filter bookmarkOk)
  | _ => .arr []

/-- `typeof f === 'object' ? f : {}` with no further validation (so `null`
survives here). -/
def vNotes (d : Json) : Json :=
  match d.getField "notes" with
  | some v => if v.typeofObject then v else .obj []
  | none => .obj []

/-- `validateProgressData`: non-objects (including `null`) map to the
defaults; otherwise each field is normalised as above.  The error case is
the `Object.keys(null)` throw from a `null`-valued `timeSpent` or
`quizScores`. -/
def validateProgressData (now : Int) (d : Json) : Except Unit Json :=
  if d.truthy && d.typeofObject then
    match vTable d "timeSpent", vTable d "quizScores" with
    | .ok ts, .ok qs =>
        .ok (.obj ([("completedChapters", vStrArray d "completedChapters"),
                    ("timeSpent", ts),
                    ("quizScores", qs),
                    ("completedSections", vStrArray d "completedSections"),
                    ("lastActivity", vLastActivity now d)]
                   ++ vExportTimestamp d
                   ++ [("bookmarks", vBookmarks d),
                       ("notes", vNotes d)]))
    | .error e, _ => .error e
    | _, .error e => .error e
  else .ok (defaultProgress now)

/-- What `localStorage.getItem(STORAGE_KEY)` yields through `JSON.parse`:
no value, a string `JSON.parse` throws on, or a parsed JSON value. -/
inductive Stored where
  | absent : Stored
  | corrupt : Stored
  | val (j : Json) : Stored

/-- Truthiness of a possibly-absent field (`undefined` is falsy). -/
def fieldTruthy (d : Json) (k : String) : Bool :=
  match d.getField k with
  | some v => v.truthy
  | none => false

/-- `loadProgress`: absent or unparsable storage yields the defaults (a
throw anywhere in the body is caught and also yields the defaults); old
data without a truthy `lastActivity` or `completedSections` is migrated by
re-stamping `lastActivity` with `parsed.lastActivity || Date.now()`. -/
def loadProgress (now : Int) (st : Stored) : Json :=
  match st with
  | .absent => defaultProgress now
  | .corrupt => defaultProgress now
  | .val parsed =>
      match validateProgressData now parsed with
      | .error _ => defaultProgress now
      | .ok validated =>
          if parsed.truthy
              && (!(fieldTruthy parsed "lastActivity")
                  || !(fieldTruthy parsed "completedSections")) then
            validated.setField "lastActivity"
              (match parsed.getField "lastActivity" with
               | some v => if v.truthy then v else .num now
               | none => .num now)
          else validated

/-- `saveProgress`: validate, then store the stringified result.  The
returned value is the new storage content as later re-parsed (`none` when
validation threw and nothing was written). -/
def saveProgress (now : Int) (p : Json) : Option Json :=
  match validateProgressData now p with
  | .error _ => none
  | .ok v => some v

/-- `Object.keys(progress.timeSpent).length` for the export metadata. -/
def keyCount : Option Json → Int
  | some (.obj l) => l.length
  | some (.arr l) => l.length
  | _ => 0

/-- `exportProgressData`: load, then spread in the export stamp, version
and metadata.  `nL`/`nE` are the `Date.now()` reads of the load and of the
export stamp; `exportDate` is the ambient clock's ISO rendering. -/
def exportProgressData (nL nE : Int) (exportDate : String) (st : Stored) : Json :=
  (((loadProgress nL st).setField "exportTimestamp" (.num nE)).setField
      "version" (.str "1.0")).setField "metadata"
    (.obj [("totalChapters", .num 13),
           ("totalSections", .num (keyCount ((loadProgress nL st).getField "timeSpent"))),
           ("exportDate", .str exportDate)])

/-- `importProgressData`: parse, reject non-objects, strip the export
metadata by rest-destructuring, validate, re-stamp `lastActivity` and save.
The result is the new storage content (`none` = the function returned
`false` and storage is unchanged).  Rest-destructuring an array turns it
into an index-keyed object in JavaScript; the model keeps the array, which
validation treats identically (every named field reads as absent). -/
def importProgressData (now : Int) (input : Except Unit Json) : Option Json :=
  match input with
  | .error _ => none
  | .ok imported =>
      if imported.truthy && imported.typeofObject then
        match validateProgressData now
            (imported.removeFields ["exportTimestamp", "version", "metadata"]) with
        | .error _ => none
        | .ok validated =>
            saveProgress now (validated.setField "lastActivity" (.num now))
      else none

/-! ## Backend pipeline, modelled from the spec

The FastAPI backend (text chunking, context assembly, rate limiting) is not
part of this source tree — only the front-end and project documents are —
so these components are modelled from the specification's component
contracts (§4.1, §4.4, §4.6). -/

/-- Is this character a sentence-ending punctuation mark? -/
def isSentenceEnd (c : Char) : Bool :=
  c == '.' || c == '!' || c == '?'

/-- Is this character a word boundary (whitespace)? -/
def isWordBoundary (c : Char) : Bool :=
  c == ' ' || c == '\n' || c == '\t' || c == '\r'

/-- Position one past the last index of the window satisfying `p`, if any. -/
def lastBoundary (p : Char → Bool) (window : List Char) : Option Nat :=
  match window.reverse.findIdx? p with
  | some i => some (window.length - i)
  | none => none

/-- Modelled from the spec: the split point the chunker picks for a text
longer than the budget — the end of the last sentence within the first
`budget` characters, else the last word boundary there, else a hard cut at
`budget` (spec §4.1: break at sentence ends, preferring them over
mid-sentence, splitting long segments so each chunk stays under the
budget). -/
def breakPos (budget : Nat) (s : List Char) : Nat :=
  match lastBoundary isSentenceEnd (s.take budget) with
  | some k => k
  | none =>
      match lastBoundary isWordBoundary (s.take budget) with
      | some k => k
      | none => budget

/-- Modelled from the spec: `Chunker.chunk`'s text splitting — repeatedly
cut off a prefix of at most `budget` characters at the preferred boundary
(spec §4.1).  The `max _ 1` guard only matters for a degenerate budget of
0; for any positive budget `breakPos` is already positive. -/
def chunkTexts (budget : Nat) (s : List Char) : List (List Char) :=
  if s.length ≤ budget then
    if s.isEmpty then [] else [s]
  else
    let k := max (breakPos budget s) 1
    s.take k :: chunkTexts budget (s.drop k)
termination_by s.length
decreasing_by
  rw [List.length_drop]
  omega

/-- A chunk as the spec's data model describes it (§3): text with chapter
and sequence metadata. -/
structure Chunk where
  text : List Char
  chapter : String
  sequenceIndex : Nat

/-- Modelled from the spec: `Chunker.chunk(chapterText, chapterId)` —
the split texts with chapter metadata and increasing sequence indices. -/
def Chunker.chunk (budget : Nat) (chapterText : List Char) (chapterId : String) :
    List Chunk :=
  (chunkTexts budget chapterText).enum.map
    (fun p => { text := p.2, chapter := chapterId, sequenceIndex := p.1 })

/-- A retrieved chunk as the context assembler sees it: text plus the
similarity score of its search hit. -/
structure ScoredChunk where
  text : List Char
  chapter : String
  score : ℚ

/-- The token measure of a chunk's text (character count as the token
proxy; only its additivity matters for the budget argument). -/
def tokenCount (c : ScoredChunk) : Nat := c.text.length

/-- Modelled from the spec: the assembler's budget accumulation step —
add a whole chunk when it still fits in the token budget, drop it
otherwise (spec §4.4: never truncates a chunk mid-text). -/
def packStep (tokenBudget : Nat) (acc : List ScoredChunk × Nat) (c : ScoredChunk) :
    List ScoredChunk × Nat :=
  if acc.2 + tokenCount c ≤ tokenBudget then (acc.1 ++ [c], acc.2 + tokenCount c)
  else acc

/-- Modelled from the spec: `ContextAssembler.assemble`'s selection stage
(§4.4) — drop hits below the relevance threshold, accumulate whole chunks
while they fit in the token budget (never truncating, dropping chunks that
do not fit), and cap the result at 3 chunks. -/
def ContextAssembler.assemble (tokenBudget : Nat) (threshold : ℚ)
    (hits : List ScoredChunk) : List ScoredChunk :=
  let relevant := hits.filter (fun c => threshold ≤ c.score)
  let packed := (relevant.foldl (packStep tokenBudget) ([], 0)).1
  packed.take 3

/-- The rate limiter's keyed window store (spec §3 `RateLimitWindow`):
client key ↦ (window start, request count). -/
abbrev LimiterState := List (String × Int × Nat)

/-- Store update: replace the entry for `key`, or append it. -/
def LimiterState.set : LimiterState → String → Int × Nat → LimiterState
  | [], key, v => [(key, v)]
  | p :: ps, key, v =>
      if p.1 == key then (key, v) :: ps else p :: LimiterState.set ps key v

/-- Modelled from the spec: `RateLimiter.admit(clientKey)` (§4.6) — a
fixed-length window per client key whose counter resets once the window
has elapsed; a request is admitted while the counter is below the limit,
and an admitted request increments it. -/
def RateLimiter.admit (windowLen : Int) (maxReq : Nat) (key : String)
    (now : Int) (st : LimiterState) : Bool × LimiterState :=
  let w : Int × Nat :=
    match st.lookup key with
    | some (ws, c) => if windowLen ≤ now - ws then (now, 0) else (ws, c)
    | none => (now, 0)
  if w.2 < maxReq then (true, st.set key (w.1, w.2 + 1))
  else (false, st)

/-- Run a sequence of requests for one client at the given times,
collecting the admit decisions. -/
def admitRun (windowLen : Int) (maxReq : Nat) (key : String)
    (times : List Int) (st : LimiterState) : List Bool :=
  match times with
  | [] => []
  | t :: ts =>
      let r := RateLimiter.admit windowLen maxReq key t st
      r.1 :: admitRun windowLen maxReq key ts r.2

/-- Value of a digit string, least significant digit first. -/
def ofDigits : List (Fin 10) → Nat
  | [] => 0
  | d :: ds => d.val + 10 * ofDigits ds

/-- A successful chat response body shaped as the backend's `ChatResponse`
interface describes it: the answer text sits under the key `response`. -/
def sampleChatBody : Json :=
  .obj [("response", .str "Machine learning is a subfield of AI."),
        ("conversation_id", .str "session_1"),
        ("citations", .arr []),
        ("confidence", .num 1),
        ("tokens_used", .num 42),
        ("timestamp", .str "2025-12-21T00:00:00Z")]

/-- An array whose elements are all strings. -/
def strArrJ : Json → Bool
  | .arr l => l.all Json.isStr
  | _ => false

/-- An object (or array) all of whose values are numbers — the shape of
`timeSpent`/`quizScores` after validation. -/
def numTableJ : Json → Bool
  | .obj l => l.all (fun p => p.2.isNum)
  | .arr l => l.all Json.isNum
  | _ => false

/-- An array of valid bookmarks. -/
def bookmarksJ : Json → Bool
  | .arr l => l.all bookmarkOk
  | _ => false

/-- The seven-field progress object, in the field order the validator
constructs. -/
def progObj7 (cc ts qs cs la bm nt : Json) : Json :=
  .obj [("completedChapters", cc), ("timeSpent", ts), ("quizScores", qs),
        ("completedSections", cs), ("lastActivity", la),
        ("bookmarks", bm), ("notes", nt)]

/-- The eight-field variant with `exportTimestamp` present. -/
def progObj8 (cc ts qs cs la et bm nt : Json) : Json :=
  .obj [("completedChapters", cc), ("timeSpent", ts), ("quizScores", qs),
        ("completedSections", cs), ("lastActivity", la), ("exportTimestamp", et),
        ("bookmarks", bm), ("notes", nt)]

/-- The exact shape `validateProgressData` produces: the seven core fields
in order (with `exportTimestamp` optionally between `lastActivity` and
`bookmarks`), each field validated.  Every value the app ever stores has
this shape. -/
def ProgressShape (v : Json) : Bool :=
  match v with
  | .obj [("completedChapters", cc), ("timeSpent", ts), ("quizScores", qs),
          ("completedSections", cs), ("lastActivity", la),
          ("bookmarks", bm), ("notes", nt)] =>
      strArrJ cc && numTableJ ts && numTableJ qs && strArrJ cs && la.isNum
        && bookmarksJ bm && nt.typeofObject
  | .obj [("completedChapters", cc), ("timeSpent", ts), ("quizScores", qs),
          ("completedSections", cs), ("lastActivity", la), ("exportTimestamp", et),
          ("bookmarks", bm), ("notes", nt)] =>
      strArrJ cc && numTableJ ts && numTableJ qs && strArrJ cs && la.isNum
        && et.truthy && bookmarksJ bm && nt.typeofObject
  | _ => false

/-- The well-formedness C9 claims of a loaded progress value:
`completedChapters`/`completedSections` hold only strings, `timeSpent`/
`quizScores` map only to numbers, and every bookmark has string `id`,
`chapter` and `title`. -/
def claimWellFormedProgress (p : Json) : Bool :=
  (match p.getField "completedChapters" with | some v => strArrJ v | none => false)
    && (match p.getField "completedSections" with | some v => strArrJ v | none => false)
    && (match p.getField "timeSpent" with | some v => numTableJ v | none => false)
    && (match p.getField "quizScores" with | some v => numTableJ v | none => false)
    && (match p.getField "bookmarks" with | some v => bookmarksJ v | none => false)

/-- A concrete stored progress state of the validated shape. -/
def sampleStored : Json :=
  progObj7 (.arr [.str "chapter-1"])
    (.obj [("chapter-1", .num 300)])
    (.obj [("quiz-1", .num 85)])
    (.arr [.str "chapter-1/intro"])
    (.num 99)
    (.arr [.obj [("id", .str "b1"), ("chapter", .str "chapter-1"),
                 ("title", .str "Lab Setup"), ("section", .str "setup"),
                 ("content", .str "pin this"), ("timestamp", .num 17),
                 ("tags", .arr []), ("isPublic", .bool false)]])
    (.obj [("chapter-1/intro", .str "remember the bias term")])

/-! ## Theorems -/

theorem ofDigits_decDigits (n : Nat) : ofDigits (decDigits n) = n := by
  induction n using Nat.strong_induction_on with
  | _ n ih =>
    unfold decDigits
    split
    · simp [ofDigits]
    · rename_i h
      rw [ofDigits, ih (n / 10) (Nat.div_lt_self (by omega) (by norm_num))]
      show n % 10 + 10 * (n / 10) = n
      omega

theorem decDigits_injective : Function.Injective decDigits := by
  intro a b h
  have h2 := congrArg ofDigits h
  rwa [ofDigits_decDigits, ofDigits_decDigits] at h2

theorem digitCh_injective : Function.Injective digitCh := by decide

theorem natToString_injective : Function.Injective natToString := by
  intro a b h
  have hd : (decDigits a).reverse.map digitCh = (decDigits b).reverse.map digitCh :=
    congrArg String.data h
  exact decDigits_injective (List.reverse_injective
    (List.map_injective_iff.mpr digitCh_injective hd))

/-- C1: when the `/api/chat` call fails (network error or non-OK status),
`handleSendMessage` appends the user message and a bot message whose text
is the fixed apology — a constant independent of the failure's detail
string or status, so no provider exception detail reaches the rendered
message. -/
theorem chat_failure_appends_fixed_apology
    (prev : List ChatMsg) (input : String) (outcome : FetchOutcome)
    (hinput : jsTrim input ≠ "") (hfail : outcome.failed = true) :
    handleSendMessage prev input false outcome = prev ++ [userMsg input, apologyMsg]
      ∧ apologyMsg.text = some (.str apologyText) := by
  refine ⟨?_, rfl⟩
  cases outcome with
  | netError d => simp [handleSendMessage, sendChatMessage, hinput]
  | response ok status body =>
    cases ok with
    | false => simp [handleSendMessage, sendChatMessage, hinput]
    | true => simp [FetchOutcome.failed] at hfail

/-- C1 witness. -/
theorem chat_failure_appends_fixed_apology_witness :
    handleSendMessage [] "hi" false (.netError "ECONNREFUSED at OpenAIProvider.call")
        = [userMsg "hi", apologyMsg]
      ∧ apologyMsg.text = some (.str apologyText) := by
  have h := chat_failure_appends_fixed_apology [] "hi"
    (.netError "ECONNREFUSED at OpenAIProvider.call") (by decide) rfl
  simpa using h

/-- C2 counterexample: on a concrete successful response the client's bot
message text is the body's `response` field, while the body has no
`response_text` key at all — the claim's key name does not match the
code. -/
theorem chat_response_key_counterexample :
    sendChatMessage (.response true 200 sampleChatBody)
        = .ok { sender := "bot",
                text := some (.str "Machine learning is a subfield of AI."),
                isError := false }
      ∧ sampleChatBody.getField "response_text" = none
      ∧ (match sendChatMessage (.response true 200 sampleChatBody) with
         | .ok m => m.text
         | .error _ => none) ≠ sampleChatBody.getField "response_text" := by
  refine ⟨rfl, rfl, ?_⟩
  intro hc
  have h1 : sampleChatBody.getField "response_text" = none := rfl
  rw [h1] at hc
  exact Option.noConfusion hc

/-- C2 amended: every successful `/api/chat` response is consumed through
its `response` field — the bot message the client builds renders exactly
`body.getField "response"` as its text. -/
theorem chat_response_renders_response_field (body : Json) (status : Nat) :
    sendChatMessage (.response true status body)
      = .ok { sender := "bot", text := body.getField "response", isError := false } :=
  rfl

/-- C3: with a non-empty query and the search plugin global unavailable,
the search page shows the fixed three mock hits, whatever the query text;
their titles are the three hardcoded ones. -/
theorem search_fallback_is_fixed_mock (query : String) (h : query ≠ "") :
    searchPageResults query .absent = .hits mockHits
      ∧ mockHits.map (fun hit => hit.title)
          = ["Introduction to Machine Learning", "Linear Regression Tutorial",
             "Linear Algebra Fundamentals"] := by
  refine ⟨?_, rfl⟩
  simp [searchPageResults, h]

/-- C3 witness. -/
theorem search_fallback_is_fixed_mock_witness :
    searchPageResults "best pizza toppings" .absent = .hits mockHits := by
  exact (search_fallback_is_fixed_mock "best pizza toppings" (by decide)).1

/-- C4: a query that trims to empty sends no request and clears the result
list; a non-whitespace query posts a body that is exactly
`{message: query, context_level: 'detailed'}`. -/
theorem search_request_guard (query : String) (outcome : SearchFetch) :
    (jsTrim query = "" → handleSearch query outcome = (none, []))
      ∧ (jsTrim query ≠ "" → handleSearch query outcome
          = (some (.obj [("message", .str query), ("context_level", .str "detailed")]),
             searchResultsFrom outcome)) := by
  constructor
  · intro h
    simp [handleSearch, h]
  · intro h
    simp [handleSearch, h, searchRequestBody]

/-- C4 witness: a whitespace-only query and a real one. -/
theorem search_request_guard_witness :
    handleSearch "   " (.netError "boom") = (none, [])
      ∧ handleSearch "llm" (.netError "boom")
          = (some (.obj [("message", .str "llm"), ("context_level", .str "detailed")]),
             []) := by
  refine ⟨(search_request_guard "   " (.netError "boom")).1 (by decide), ?_⟩
  have h := (search_request_guard "llm" (.netError "boom")).2 (by decide)
  simpa [searchResultsFrom] using h

/-- C10: every `/api/chat` request body carries
`conversation_id = 'session_' + Date.now()`, freshly computed, and two
sends at different millisecond timestamps never share a conversation id. -/
theorem conversation_id_fresh_per_message (m₁ m₂ : String) (t₁ t₂ : Nat)
    (h : t₁ ≠ t₂) :
    (chatRequestBody m₁ t₁).getField "conversation_id"
        = some (.str ("session_" ++ natToString t₁))
      ∧ (chatRequestBody m₁ t₁).getField "conversation_id"
          ≠ (chatRequestBody m₂ t₂).getField "conversation_id" := by
  have e : ∀ (m : String) (t : Nat), (chatRequestBody m t).getField "conversation_id"
      = some (.str ("session_" ++ natToString t)) := by
    intro m t
    rfl
  refine ⟨e m₁ t₁, ?_⟩
  rw [e m₁ t₁, e m₂ t₂]
  intro hc
  apply h
  apply natToString_injective
  have hs : ("session_" ++ natToString t₁ : String) = "session_" ++ natToString t₂ := by
    injection hc with hc1
    injection hc1
  have hd := congrArg String.data hs
  simp only [String.data_append] at hd
  exact String.ext (List.append_cancel_left hd)

/-- C10 witness: two sends one millisecond apart. -/
theorem conversation_id_fresh_per_message_witness :
    (chatRequestBody "What is ML?" 1700000000001).getField "conversation_id"
        = some (.str ("session_" ++ natToString 1700000000001))
      ∧ (chatRequestBody "What is ML?" 1700000000001).getField "conversation_id"
          ≠ (chatRequestBody "Explain chapter 3" 1700000000002).getField "conversation_id" :=
  conversation_id_fresh_per_message "What is ML?" "Explain chapter 3"
    1700000000001 1700000000002 (by decide)

/-- Every chunk the packing fold adds was added under the budget check, so
any member of the fold's accumulated list was in the initial accumulator or
fits the budget on its own. -/
theorem packFold_mem (tokenBudget : Nat) (l : List ScoredChunk) :
    ∀ (acc : List ScoredChunk × Nat) (c : ScoredChunk),
      c ∈ (l.foldl (packStep tokenBudget) acc).1 → c ∈ acc.1 ∨ tokenCount c ≤ tokenBudget := by
  induction l with
  | nil => intro acc c h; exact .inl h
  | cons x xs ih =>
    intro acc c h
    rw [List.foldl_cons] at h
    rcases ih (packStep tokenBudget acc x) c h with h1 | h1
    · unfold packStep at h1
      split at h1
      · rename_i hfit
        rcases List.mem_append.mp h1 with h2 | h2
        · exact .inl h2
        · right
          rw [List.mem_singleton.mp h2]
          omega
      · exact .inl h1
    · exact .inr h1

/-- C5: `ContextAssembler.assemble` returns at most 3 chunks, and every
returned chunk fits the token budget on its own. -/
theorem assemble_capped_and_within_budget (tokenBudget : Nat) (threshold : ℚ)
    (hits : List ScoredChunk) :
    (ContextAssembler.assemble tokenBudget threshold hits).length ≤ 3
      ∧ ∀ c ∈ ContextAssembler.assemble tokenBudget threshold hits,
          tokenCount c ≤ tokenBudget := by
  constructor
  · exact List.length_take_le 3 _
  · intro c hc
    have hm := List.mem_of_mem_take hc
    rcases packFold_mem tokenBudget _ ([], 0) c hm with h | h
    · simp at h
    · exact h

theorem lookup_set (st : LimiterState) (k : String) (v : Int × Nat) :
    (st.set k v).lookup k = some v := by
  induction st with
  | nil => simp [LimiterState.set, List.lookup]
  | cons p ps ih =>
    rw [LimiterState.set]
    by_cases hp : p.1 = k
    · simp [hp, List.lookup]
    · have hb : (p.1 == k) = false := beq_eq_false_iff_ne.mpr hp
      have hb2 : (k == p.1) = false := beq_eq_false_iff_ne.mpr (fun h => hp h.symm)
      simp only [hb, if_false, List.lookup, hb2]
      exact ih

/-- The rate-limiter run: with a stored window `(t₀, c)` for the key and
every request time inside that window, the `i`-th request of the run is
admitted exactly when `c + i` is still below the limit. -/
theorem admitRun_invariant (windowLen : Int) (maxReq : Nat) (key : String) (t₀ : Int) :
    ∀ (ts : List Int) (c : Nat) (st : LimiterState),
      st.lookup key = some (t₀, c) →
      (∀ t ∈ ts, t₀ ≤ t ∧ t - t₀ < windowLen) →
      admitRun windowLen maxReq key ts st
        = (List.range ts.length).map (fun i => decide (c + i < maxReq)) := by
  intro ts
  induction ts with
  | nil => intro c st h hw; rfl
  | cons t ts ih =>
    intro c st h hw
    have hwt := hw t (by simp)
    have hno : ¬ windowLen ≤ t - t₀ := by omega
    rw [admitRun]
    unfold RateLimiter.admit
    rw [h]
    simp only [if_neg hno]
    by_cases hc : c < maxReq
    · simp only [if_pos hc]
      rw [ih (c + 1) _ (lookup_set st key (t₀, c + 1))
        (fun t ht => hw t (List.mem_cons_of_mem _ ht))]
      rw [List.length_cons, List.range_succ_eq_map, List.map_cons, List.map_map]
      refine congrArg₂ _ (by simpa using hc) ?_
      refine List.map_congr_left (fun i _ => ?_)
      have he : c + 1 + i = c + (i + 1) := by omega
      simp [Function.comp, he, Nat.succ_eq_add_one]
    · simp only [if_neg hc]
      rw [ih c st h (fun t ht => hw t (List.mem_cons_of_mem _ ht))]
      rw [List.length_cons, List.range_succ_eq_map, List.map_cons, List.map_map]
      refine congrArg₂ _ ?_ ?_
      · simpa using hc
      · refine List.map_congr_left (fun i _ => ?_)
        have h1 : ¬ (c + i < maxReq) := by omega
        have h2 : ¬ (c + (i + 1) < maxReq) := by omega
        simp [Function.comp, Nat.succ_eq_add_one, h1, h2]

/-- C6: starting from a store with no window for the key, a run of requests
all falling in the window opened by the first request is admitted exactly
on its first `maxReq` requests: the `i`-th decision (0-based) is
`i < maxReq`, so with limit N the first N are allowed and the (N+1)-th is
denied. -/
theorem rateLimiter_admits_first_N (windowLen : Int) (maxReq : Nat) (key : String)
    (t₀ : Int) (ts : List Int)
    (hw : ∀ t ∈ ts, t₀ ≤ t ∧ t - t₀ < windowLen) :
    admitRun windowLen maxReq key (t₀ :: ts) []
      = (List.range (ts.length + 1)).map (fun i => decide (i < maxReq)) := by
  rw [admitRun]
  unfold RateLimiter.admit
  simp only [List.lookup]
  by_cases hN : 0 < maxReq
  · simp only [if_pos hN]
    rw [admitRun_invariant windowLen maxReq key t₀ ts 1 _
      (lookup_set [] key (t₀, 1)) hw]
    rw [List.range_succ_eq_map, List.map_cons, List.map_map]
    refine congrArg₂ _ (by simpa using hN) ?_
    refine List.map_congr_left (fun i _ => ?_)
    have he : 1 + i = i + 1 := by omega
    simp [Function.comp, he, Nat.succ_eq_add_one]
  · simp only [if_neg hN]
    have hz : maxReq = 0 := by omega
    subst hz
    have hrun : ∀ (us : List Int), admitRun windowLen 0 key us [] =
        List.replicate us.length false := by
      intro us
      induction us with
      | nil => rfl
      | cons u us ih =>
        rw [admitRun]
        unfold RateLimiter.admit
        simp only [List.lookup]
        simpa [List.replicate] using ih
    rw [hrun ts]
    have : ∀ i : Nat, decide (i < 0) = false := fun i => by simp
    rw [List.map_congr_left (fun i _ => this i)]
    simp [List.map_const', List.replicate]

/-- C6 witness: limit 2, three requests in one 60-unit window — the first
two are admitted, the third is denied. -/
theorem rateLimiter_admits_first_N_witness :
    admitRun 60 2 "session-1" [0, 10, 20] [] = [true, true, false] := by
  have h := rateLimiter_admits_first_N 60 2 "session-1" 0 [10, 20]
    (by intro t ht; fin_cases ht <;> constructor <;> decide)
  simpa using h

theorem lastBoundary_le (p : Char → Bool) (w : List Char) (k : Nat) :
    lastBoundary p w = some k → k ≤ w.length := by
  unfold lastBoundary
  cases h : w.reverse.findIdx? p with
  | none => simp
  | some i =>
    intro hk
    simp only [Option.some.injEq] at hk
    omega

theorem breakPos_le (budget : Nat) (s : List Char) : breakPos budget s ≤ budget := by
  have hw : (s.take budget).length ≤ budget := by
    simp [List.length_take]
  unfold breakPos
  split
  · next k h1 => exact le_trans (lastBoundary_le _ _ _ h1) hw
  · split
    · next k h2 => exact le_trans (lastBoundary_le _ _ _ h2) hw
    · exact le_refl budget

/-- Concatenating the chunk texts reproduces the chapter text exactly. -/
theorem chunkTexts_flatten (budget : Nat) (s : List Char) :
    (chunkTexts budget s).flatten = s := by
  induction s using chunkTexts.induct budget with
  | case1 s hle hemp =>
    rw [chunkTexts]
    have hnil : s = [] := List.isEmpty_iff.mp hemp
    simp [hle, hemp, hnil]
  | case2 s hle hemp =>
    rw [chunkTexts]
    simp [hle, hemp]
  | case3 s hle k ih =>
    rw [chunkTexts]
    simp only [if_neg hle, List.flatten_cons]
    have ih2 : (chunkTexts budget (List.drop (max (breakPos budget s) 1) s)).flatten
        = List.drop (max (breakPos budget s) 1) s := ih
    rw [ih2]
    exact List.take_append_drop _ s

/-- Every produced chunk text fits the character budget. -/
theorem chunkTexts_length_le (budget : Nat) (hb : 0 < budget) (s : List Char) :
    ∀ c ∈ chunkTexts budget s, c.length ≤ budget := by
  induction s using chunkTexts.induct budget with
  | case1 s hle hemp =>
    rw [chunkTexts]
    simp [hle, hemp]
  | case2 s hle hemp =>
    rw [chunkTexts]
    intro c hc
    simp only [if_pos hle, if_neg hemp] at hc
    rw [List.mem_singleton.mp hc]
    exact hle
  | case3 s hle k ih =>
    rw [chunkTexts]
    intro c hc
    simp only [if_neg hle] at hc
    rcases List.mem_cons.mp hc with h | h
    · subst h
      have h1 : breakPos budget s ≤ budget := breakPos_le budget s
      rw [List.length_take]
      exact le_trans (min_le_left _ _) (max_le h1 hb)
    · exact ih c h

/-- C7: every chunk of `Chunker.chunk` has text of at most `budget`
characters, and concatenating all chunk texts in order reproduces the
chapter text exactly (hence without losing or duplicating any word). -/
theorem chunker_bounded_and_lossless (budget : Nat) (hb : 0 < budget)
    (chapterText : List Char) (chapterId : String) :
    (∀ c ∈ Chunker.chunk budget chapterText chapterId, c.text.length ≤ budget)
      ∧ ((Chunker.chunk budget chapterText chapterId).map (fun c => c.text)).flatten
          = chapterText := by
  constructor
  · intro c hc
    unfold Chunker.chunk at hc
    rcases List.mem_map.mp hc with ⟨p, hp, hpc⟩
    have hmem : p.2 ∈ chunkTexts budget chapterText := by
      have h2 := List.mem_map_of_mem Prod.snd hp
      rwa [List.enum_map_snd] at h2
    have h3 := chunkTexts_length_le budget hb chapterText p.2 hmem
    rw [← hpc]
    exact h3
  · unfold Chunker.chunk
    rw [List.map_map]
    have hcomp : ((fun c : Chunk => c.text) ∘ fun p : Nat × List Char =>
        ({ text := p.2, chapter := chapterId, sequenceIndex := p.1 } : Chunk))
          = Prod.snd := rfl
    rw [hcomp, List.enum_map_snd]
    exact chunkTexts_flatten budget chapterText

/-! ### Progress-store shape lemmas (for C8 and C9) -/

theorem ProgressShape7 (cc ts qs cs la bm nt : Json) :
    ProgressShape (progObj7 cc ts qs cs la bm nt)
      = (strArrJ cc && numTableJ ts && numTableJ qs && strArrJ cs && la.isNum
          && bookmarksJ bm && nt.typeofObject) := rfl

theorem ProgressShape8 (cc ts qs cs la et bm nt : Json) :
    ProgressShape (progObj8 cc ts qs cs la et bm nt)
      = (strArrJ cc && numTableJ ts && numTableJ qs && strArrJ cs && la.isNum
          && et.truthy && bookmarksJ bm && nt.typeofObject) := rfl

theorem strArrJ_vStrArray (d : Json) (k : String) : strArrJ (vStrArray d k) = true := by
  unfold vStrArray
  split
  · rename_i l
    simp only [strArrJ, List.all_eq_true]
    intro x hx
    exact (List.mem_filter.mp hx).2
  · rfl

theorem numTableJ_vTable (d : Json) (k : String) (t : Json)
    (h : vTable d k = .ok t) : numTableJ t = true := by
  unfold vTable at h
  split at h
  · exact Except.noConfusion h
  · rename_i l
    cases h
    simp only [numTableJ, List.all_eq_true]
    intro p hp
    exact (List.mem_filter.mp hp).2
  · rename_i l
    cases h
    simp only [numTableJ, List.all_eq_true]
    intro x hx
    exact (List.mem_filter.mp hx).2
  · cases h; rfl
  · cases h; rfl

theorem isNum_vLastActivity (now : Int) (d : Json) :
    (vLastActivity now d).isNum = true := by
  unfold vLastActivity
  split <;> rfl

theorem bookmarksJ_vBookmarks (d : Json) : bookmarksJ (vBookmarks d) = true := by
  unfold vBookmarks
  split
  · rename_i l
    simp only [bookmarksJ, List.all_eq_true]
    intro x hx
    exact (List.mem_filter.mp hx).2
  · rfl

theorem typeofObject_vNotes (d : Json) : (vNotes d).typeofObject = true := by
  unfold vNotes
  split
  · rename_i v
    split
    · assumption
    · rfl
  · rfl

theorem vExportTimestamp_eq (d : Json) (w : Json)
    (hg : d.getField "exportTimestamp" = some w) :
    vExportTimestamp d = if w.truthy = true then [("exportTimestamp", w)] else [] := by
  unfold vExportTimestamp
  rw [hg]

theorem vExportTimestamp_cases (d : Json) :
    vExportTimestamp d = []
      ∨ ∃ w, vExportTimestamp d = [("exportTimestamp", w)] ∧ w.truthy = true := by
  cases hg : d.getField "exportTimestamp" with
  | none =>
    left
    unfold vExportTimestamp
    rw [hg]
  | some w =>
    rw [vExportTimestamp_eq d w hg]
    cases hwt : w.truthy with
    | true => exact .inr ⟨w, by rw [if_pos rfl], hwt⟩
    | false => exact .inl (by rw [if_neg (by simp)])

/-- Whatever `validateProgressData` accepts, its output has the validated
shape. -/
theorem shape_of_validate (now : Int) (d v : Json)
    (h : validateProgressData now d = .ok v) : ProgressShape v = true := by
  unfold validateProgressData at h
  split at h
  · split at h
    · rename_i ts qs hts hqs
      cases h
      rcases vExportTimestamp_cases d with he | ⟨w, he, hw⟩
      · rw [he]
        simp only [List.cons_append, List.nil_append]
        have hs : ProgressShape (progObj7 (vStrArray d "completedChapters") ts qs
            (vStrArray d "completedSections") (vLastActivity now d)
            (vBookmarks d) (vNotes d)) = true := by
          rw [ProgressShape7]
          simp [strArrJ_vStrArray, numTableJ_vTable _ _ _ hts,
            numTableJ_vTable _ _ _ hqs, isNum_vLastActivity, bookmarksJ_vBookmarks,
            typeofObject_vNotes]
        exact hs
      · rw [he]
        simp only [List.cons_append, List.nil_append]
        have hs : ProgressShape (progObj8 (vStrArray d "completedChapters") ts qs
            (vStrArray d "completedSections") (vLastActivity now d) w
            (vBookmarks d) (vNotes d)) = true := by
          rw [ProgressShape8]
          simp [strArrJ_vStrArray, numTableJ_vTable _ _ _ hts,
            numTableJ_vTable _ _ _ hqs, isNum_vLastActivity, bookmarksJ_vBookmarks,
            typeofObject_vNotes, hw]
        exact hs
    · exact Except.noConfusion h
    · exact Except.noConfusion h
  · cases h
    rfl

theorem vStrArray_id (d : Json) (k : String) (c : Json)
    (hget : d.getField k = some c) (hc : strArrJ c = true) : vStrArray d k = c := by
  cases c <;> simp only [strArrJ] at hc
  case arr l =>
    unfold vStrArray
    rw [hget]
    have hf : l.filter Json.isStr = l :=
      List.filter_eq_self.mpr (fun x hx => List.all_eq_true.mp hc x hx)
    simp [hf]
  all_goals exact absurd hc (by simp)

theorem vTable_id (d : Json) (k : String) (t : Json)
    (hget : d.getField k = some t) (ht : numTableJ t = true) : vTable d k = .ok t := by
  cases t <;> simp only [numTableJ] at ht
  case obj l =>
    unfold vTable
    rw [hget]
    have hf : l.filter (fun p => p.2.isNum) = l :=
      List.filter_eq_self.mpr (fun x hx => List.all_eq_true.mp ht x hx)
    simp [hf]
  case arr l =>
    unfold vTable
    rw [hget]
    have hf : l.filter Json.isNum = l :=
      List.filter_eq_self.mpr (fun x hx => List.all_eq_true.mp ht x hx)
    simp [hf]
  all_goals exact absurd ht (by simp)

theorem vLastActivity_id (now : Int) (d : Json) (la : Json)
    (hget : d.getField "lastActivity" = some la) (hla : la.isNum = true) :
    vLastActivity now d = la := by
  cases la <;> simp only [Json.isNum] at hla
  case num x =>
    unfold vLastActivity
    rw [hget]
  all_goals exact absurd hla (by simp)

theorem vBookmarks_id (d : Json) (bm : Json)
    (hget : d.getField "bookmarks" = some bm) (hbm : bookmarksJ bm = true) :
    vBookmarks d = bm := by
  cases bm <;> simp only [bookmarksJ] at hbm
  case arr l =>
    unfold vBookmarks
    rw [hget]
    have hf : l.filter bookmarkOk = l :=
      List.filter_eq_self.mpr (fun x hx => List.all_eq_true.mp hbm x hx)
    simp [hf]
  all_goals exact absurd hbm (by simp)

theorem vNotes_id (d : Json) (nt : Json)
    (hget : d.getField "notes" = some nt) (hnt : nt.typeofObject = true) :
    vNotes d = nt := by
  unfold vNotes
  rw [hget]
  simp [hnt]

theorem vExportTimestamp_none (d : Json)
    (hget : d.getField "exportTimestamp" = none) : vExportTimestamp d = [] := by
  unfold vExportTimestamp
  rw [hget]

theorem vExportTimestamp_some (d : Json) (et : Json)
    (hget : d.getField "exportTimestamp" = some et) (het : et.truthy = true) :
    vExportTimestamp d = [("exportTimestamp", et)] := by
  rw [vExportTimestamp_eq d et hget, if_pos het]

/-- Validation reduced on an object input (its truthiness check passes). -/
theorem validate_obj_eq (now : Int) (l : List (String × Json)) :
    validateProgressData now (.obj l)
      = match vTable (.obj l) "timeSpent", vTable (.obj l) "quizScores" with
        | .ok ts, .ok qs =>
            .ok (.obj ([("completedChapters", vStrArray (.obj l) "completedChapters"),
                        ("timeSpent", ts),
                        ("quizScores", qs),
                        ("completedSections", vStrArray (.obj l) "completedSections"),
                        ("lastActivity", vLastActivity now (.obj l))]
                       ++ vExportTimestamp (.obj l)
                       ++ [("bookmarks", vBookmarks (.obj l)),
                           ("notes", vNotes (.obj l))]))
        | .error e, _ => .error e
        | _, .error e => .error e := rfl

/-- A seven-field object of validated fields is a fixpoint of validation. -/
theorem validate_fix7 (now : Int) (cc ts qs cs la bm nt : Json)
    (hcc : strArrJ cc = true) (hts : numTableJ ts = true) (hqs : numTableJ qs = true)
    (hcs : strArrJ cs = true) (hla : la.isNum = true) (hbm : bookmarksJ bm = true)
    (hnt : nt.typeofObject = true) :
    validateProgressData now (progObj7 cc ts qs cs la bm nt)
      = .ok (progObj7 cc ts qs cs la bm nt) := by
  have h1 : vTable (progObj7 cc ts qs cs la bm nt) "timeSpent" = .ok ts :=
    vTable_id (progObj7 cc ts qs cs la bm nt) "timeSpent" ts rfl hts
  have h2 : vTable (progObj7 cc ts qs cs la bm nt) "quizScores" = .ok qs :=
    vTable_id (progObj7 cc ts qs cs la bm nt) "quizScores" qs rfl hqs
  have h3 : vStrArray (progObj7 cc ts qs cs la bm nt) "completedChapters" = cc :=
    vStrArray_id (progObj7 cc ts qs cs la bm nt) "completedChapters" cc rfl hcc
  have h4 : vStrArray (progObj7 cc ts qs cs la bm nt) "completedSections" = cs :=
    vStrArray_id (progObj7 cc ts qs cs la bm nt) "completedSections" cs rfl hcs
  have h5 : vLastActivity now (progObj7 cc ts qs cs la bm nt) = la :=
    vLastActivity_id now (progObj7 cc ts qs cs la bm nt) la rfl hla
  have h6 : vBookmarks (progObj7 cc ts qs cs la bm nt) = bm :=
    vBookmarks_id (progObj7 cc ts qs cs la bm nt) bm rfl hbm
  have h7 : vNotes (progObj7 cc ts qs cs la bm nt) = nt :=
    vNotes_id (progObj7 cc ts qs cs la bm nt) nt rfl hnt
  have h8 : vExportTimestamp (progObj7 cc ts qs cs la bm nt) = [] :=
    vExportTimestamp_none (progObj7 cc ts qs cs la bm nt) rfl
  rw [show progObj7 cc ts qs cs la bm nt
      = Json.obj [("completedChapters", cc), ("timeSpent", ts), ("quizScores", qs),
          ("completedSections", cs), ("lastActivity", la),
          ("bookmarks", bm), ("notes", nt)] from rfl] at h1 h2 h3 h4 h5 h6 h7 h8 ⊢
  rw [validate_obj_eq, h1, h2]
  simp only [h3, h4, h5, h6, h7, h8, List.cons_append, List.nil_append]

/-- An eight-field object of validated fields (truthy export stamp) is a
fixpoint of validation. -/
theorem validate_fix8 (now : Int) (cc ts qs cs la et bm nt : Json)
    (hcc : strArrJ cc = true) (hts : numTableJ ts = true) (hqs : numTableJ qs = true)
    (hcs : strArrJ cs = true) (hla : la.isNum = true) (het : et.truthy = true)
    (hbm : bookmarksJ bm = true) (hnt : nt.typeofObject = true) :
    validateProgressData now (progObj8 cc ts qs cs la et bm nt)
      = .ok (progObj8 cc ts qs cs la et bm nt) := by
  have h1 : vTable (progObj8 cc ts qs cs la et bm nt) "timeSpent" = .ok ts :=
    vTable_id (progObj8 cc ts qs cs la et bm nt) "timeSpent" ts rfl hts
  have h2 : vTable (progObj8 cc ts qs cs la et bm nt) "quizScores" = .ok qs :=
    vTable_id (progObj8 cc ts qs cs la et bm nt) "quizScores" qs rfl hqs
  have h3 : vStrArray (progObj8 cc ts qs cs la et bm nt) "completedChapters" = cc :=
    vStrArray_id (progObj8 cc ts qs cs la et bm nt) "completedChapters" cc rfl hcc
  have h4 : vStrArray (progObj8 cc ts qs cs la et bm nt) "completedSections" = cs :=
    vStrArray_id (progObj8 cc ts qs cs la et bm nt) "completedSections" cs rfl hcs
  have h5 : vLastActivity now (progObj8 cc ts qs cs la et bm nt) = la :=
    vLastActivity_id now (progObj8 cc ts qs cs la et bm nt) la rfl hla
  have h6 : vBookmarks (progObj8 cc ts qs cs la et bm nt) = bm :=
    vBookmarks_id (progObj8 cc ts qs cs la et bm nt) bm rfl hbm
  have h7 : vNotes (progObj8 cc ts qs cs la et bm nt) = nt :=
    vNotes_id (progObj8 cc ts qs cs la et bm nt) nt rfl hnt
  have h8 : vExportTimestamp (progObj8 cc ts qs cs la et bm nt) = [("exportTimestamp", et)] :=
    vExportTimestamp_some (progObj8 cc ts qs cs la et bm nt) et rfl het
  rw [show progObj8 cc ts qs cs la et bm nt
      = Json.obj [("completedChapters", cc), ("timeSpent", ts), ("quizScores", qs),
          ("completedSections", cs), ("lastActivity", la), ("exportTimestamp", et),
          ("bookmarks", bm), ("notes", nt)] from rfl] at h1 h2 h3 h4 h5 h6 h7 h8 ⊢
  rw [validate_obj_eq, h1, h2]
  simp only [h3, h4, h5, h6, h7, h8, List.cons_append, List.nil_append]

/-- A value of the validated shape is a fixpoint of validation, whatever
`Date.now()` reads. -/
theorem validate_of_shape (now : Int) (v : Json) (h : ProgressShape v = true) :
    validateProgressData now v = .ok v := by
  unfold ProgressShape at h
  split at h
  · rename_i cc ts qs cs la bm nt
    simp only [Bool.and_eq_true] at h
    obtain ⟨⟨⟨⟨⟨⟨hcc, hts⟩, hqs⟩, hcs⟩, hla⟩, hbm⟩, hnt⟩ := h
    exact validate_fix7 now cc ts qs cs la bm nt hcc hts hqs hcs hla hbm hnt
  · rename_i cc ts qs cs la et bm nt
    simp only [Bool.and_eq_true] at h
    obtain ⟨⟨⟨⟨⟨⟨⟨hcc, hts⟩, hqs⟩, hcs⟩, hla⟩, het⟩, hbm⟩, hnt⟩ := h
    exact validate_fix8 now cc ts qs cs la et bm nt hcc hts hqs hcs hla het hbm hnt
  · exact absurd h (by simp)

theorem claimWellFormed_of_shape (v : Json) (h : ProgressShape v = true) :
    claimWellFormedProgress v = true := by
  unfold ProgressShape at h
  split at h
  · rename_i cc ts qs cs la bm nt
    simp only [Bool.and_eq_true] at h
    obtain ⟨⟨⟨⟨⟨⟨hcc, hts⟩, hqs⟩, hcs⟩, hla⟩, hbm⟩, hnt⟩ := h
    have hr : claimWellFormedProgress (progObj7 cc ts qs cs la bm nt)
        = (strArrJ cc && strArrJ cs && numTableJ ts && numTableJ qs && bookmarksJ bm) := rfl
    rw [show (Json.obj [("completedChapters", cc), ("timeSpent", ts), ("quizScores", qs),
        ("completedSections", cs), ("lastActivity", la),
        ("bookmarks", bm), ("notes", nt)]) = progObj7 cc ts qs cs la bm nt from rfl, hr]
    simp [hcc, hcs, hts, hqs, hbm]
  · rename_i cc ts qs cs la et bm nt
    simp only [Bool.and_eq_true] at h
    obtain ⟨⟨⟨⟨⟨⟨⟨hcc, hts⟩, hqs⟩, hcs⟩, hla⟩, het⟩, hbm⟩, hnt⟩ := h
    have hr : claimWellFormedProgress (progObj8 cc ts qs cs la et bm nt)
        = (strArrJ cc && strArrJ cs && numTableJ ts && numTableJ qs && bookmarksJ bm) := rfl
    rw [show (Json.obj [("completedChapters", cc), ("timeSpent", ts), ("quizScores", qs),
        ("completedSections", cs), ("lastActivity", la), ("exportTimestamp", et),
        ("bookmarks", bm), ("notes", nt)]) = progObj8 cc ts qs cs la et bm nt from rfl, hr]
    simp [hcc, hcs, hts, hqs, hbm]
  · exact absurd h (by simp)

theorem claimWellFormed_setLa (v x : Json) (h : ProgressShape v = true) :
    claimWellFormedProgress (v.setField "lastActivity" x) = true := by
  unfold ProgressShape at h
  split at h
  · rename_i cc ts qs cs la bm nt
    simp only [Bool.and_eq_true] at h
    obtain ⟨⟨⟨⟨⟨⟨hcc, hts⟩, hqs⟩, hcs⟩, hla⟩, hbm⟩, hnt⟩ := h
    have hr : claimWellFormedProgress
        ((progObj7 cc ts qs cs la bm nt).setField "lastActivity" x)
        = (strArrJ cc && strArrJ cs && numTableJ ts && numTableJ qs && bookmarksJ bm) := rfl
    rw [show (Json.obj [("completedChapters", cc), ("timeSpent", ts), ("quizScores", qs),
        ("completedSections", cs), ("lastActivity", la),
        ("bookmarks", bm), ("notes", nt)]) = progObj7 cc ts qs cs la bm nt from rfl, hr]
    simp [hcc, hcs, hts, hqs, hbm]
  · rename_i cc ts qs cs la et bm nt
    simp only [Bool.and_eq_true] at h
    obtain ⟨⟨⟨⟨⟨⟨⟨hcc, hts⟩, hqs⟩, hcs⟩, hla⟩, het⟩, hbm⟩, hnt⟩ := h
    have hr : claimWellFormedProgress
        ((progObj8 cc ts qs cs la et bm nt).setField "lastActivity" x)
        = (strArrJ cc && strArrJ cs && numTableJ ts && numTableJ qs && bookmarksJ bm) := rfl
    rw [show (Json.obj [("completedChapters", cc), ("timeSpent", ts), ("quizScores", qs),
        ("completedSections", cs), ("lastActivity", la), ("exportTimestamp", et),
        ("bookmarks", bm), ("notes", nt)]) = progObj8 cc ts qs cs la et bm nt from rfl, hr]
    simp [hcc, hcs, hts, hqs, hbm]
  · exact absurd h (by simp)

/-- C9: `loadProgress` is total and always yields a value whose
`completedChapters`/`completedSections` hold only strings, whose
`timeSpent`/`quizScores` map only to numbers, and whose bookmarks all have
string `id`, `chapter`, `title`; unparsable storage yields the default
progress. -/
theorem loadProgress_total_and_wellformed (now : Int) (st : Stored) :
    claimWellFormedProgress (loadProgress now st) = true
      ∧ loadProgress now Stored.corrupt = defaultProgress now := by
  refine ⟨?_, rfl⟩
  cases st with
  | absent => rfl
  | corrupt => rfl
  | val parsed =>
    cases hv : validateProgressData now parsed with
    | error e =>
      dsimp only [loadProgress]
      rw [hv]
      rfl
    | ok v =>
      have hs := shape_of_validate now parsed v hv
      dsimp only [loadProgress]
      rw [hv]
      dsimp only
      split
      · exact claimWellFormed_setLa v _ hs
      · exact claimWellFormed_of_shape v hs

/-- Import reduced on an object input (its truthiness check passes). -/
theorem import_obj_eq (now : Int) (l : List (String × Json)) :
    importProgressData now (.ok (.obj l))
      = match validateProgressData now
          ((Json.obj l).removeFields ["exportTimestamp", "version", "metadata"]) with
        | .error _ => none
        | .ok validated => saveProgress now (validated.setField "lastActivity" (.num now)) := rfl

/-- Importing the export spread of a seven-field validated object stores it
back with only `lastActivity` re-stamped. -/
theorem export_import_core7 (nE nI secs : Int) (exportDate : String)
    (cc ts qs cs la bm nt : Json)
    (hcc : strArrJ cc = true) (hts : numTableJ ts = true) (hqs : numTableJ qs = true)
    (hcs : strArrJ cs = true) (hla : la.isNum = true) (hbm : bookmarksJ bm = true)
    (hnt : nt.typeofObject = true) :
    importProgressData nI (.ok
      ((((progObj7 cc ts qs cs la bm nt).setField "exportTimestamp" (.num nE)).setField
          "version" (.str "1.0")).setField "metadata"
        (.obj [("totalChapters", .num 13), ("totalSections", .num secs),
               ("exportDate", .str exportDate)])))
      = some (progObj7 cc ts qs cs (.num nI) bm nt) := by
  have hE : (((progObj7 cc ts qs cs la bm nt).setField "exportTimestamp" (.num nE)).setField
          "version" (.str "1.0")).setField "metadata"
        (.obj [("totalChapters", .num 13), ("totalSections", .num secs),
               ("exportDate", .str exportDate)])
      = Json.obj [("completedChapters", cc), ("timeSpent", ts), ("quizScores", qs),
          ("completedSections", cs), ("lastActivity", la),
          ("bookmarks", bm), ("notes", nt), ("exportTimestamp", .num nE),
          ("version", .str "1.0"),
          ("metadata", .obj [("totalChapters", .num 13), ("totalSections", .num secs),
            ("exportDate", .str exportDate)])] := rfl
  rw [hE, import_obj_eq]
  have hrm : (Json.obj [("completedChapters", cc), ("timeSpent", ts), ("quizScores", qs),
      ("completedSections", cs), ("lastActivity", la),
      ("bookmarks", bm), ("notes", nt), ("exportTimestamp", .num nE),
      ("version", .str "1.0"),
      ("metadata", .obj [("totalChapters", .num 13), ("totalSections", .num secs),
        ("exportDate", .str exportDate)])]).removeFields
          ["exportTimestamp", "version", "metadata"]
      = progObj7 cc ts qs cs la bm nt := rfl
  rw [hrm, validate_fix7 nI cc ts qs cs la bm nt hcc hts hqs hcs hla hbm hnt]
  show saveProgress nI ((progObj7 cc ts qs cs la bm nt).setField "lastActivity" (.num nI))
      = some (progObj7 cc ts qs cs (.num nI) bm nt)
  rw [show (progObj7 cc ts qs cs la bm nt).setField "lastActivity" (.num nI)
      = progObj7 cc ts qs cs (.num nI) bm nt from rfl]
  unfold saveProgress
  rw [validate_fix7 nI cc ts qs cs (.num nI) bm nt hcc hts hqs hcs rfl hbm hnt]

/-- Importing the export spread of an eight-field validated object (its
stale export stamp replaced by the new one) stores the seven core fields
back with only `lastActivity` re-stamped. -/
theorem export_import_core8 (nE nI secs : Int) (exportDate : String)
    (cc ts qs cs la et bm nt : Json)
    (hcc : strArrJ cc = true) (hts : numTableJ ts = true) (hqs : numTableJ qs = true)
    (hcs : strArrJ cs = true) (hla : la.isNum = true) (hbm : bookmarksJ bm = true)
    (hnt : nt.typeofObject = true) :
    importProgressData nI (.ok
      ((((progObj8 cc ts qs cs la et bm nt).setField "exportTimestamp" (.num nE)).setField
          "version" (.str "1.0")).setField "metadata"
        (.obj [("totalChapters", .num 13), ("totalSections", .num secs),
               ("exportDate", .str exportDate)])))
      = some (progObj7 cc ts qs cs (.num nI) bm nt) := by
  have hE : (((progObj8 cc ts qs cs la et bm nt).setField "exportTimestamp" (.num nE)).setField
          "version" (.str "1.0")).setField "metadata"
        (.obj [("totalChapters", .num 13), ("totalSections", .num secs),
               ("exportDate", .str exportDate)])
      = Json.obj [("completedChapters", cc), ("timeSpent", ts), ("quizScores", qs),
          ("completedSections", cs), ("lastActivity", la), ("exportTimestamp", .num nE),
          ("bookmarks", bm), ("notes", nt),
          ("version", .str "1.0"),
          ("metadata", .obj [("totalChapters", .num 13), ("totalSections", .num secs),
            ("exportDate", .str exportDate)])] := rfl
  rw [hE, import_obj_eq]
  have hrm : (Json.obj [("completedChapters", cc), ("timeSpent", ts), ("quizScores", qs),
      ("completedSections", cs), ("lastActivity", la), ("exportTimestamp", .num nE),
      ("bookmarks", bm), ("notes", nt),
      ("version", .str "1.0"),
      ("metadata", .obj [("totalChapters", .num 13), ("totalSections", .num secs),
        ("exportDate", .str exportDate)])]).removeFields
          ["exportTimestamp", "version", "metadata"]
      = progObj7 cc ts qs cs la bm nt := rfl
  rw [hrm, validate_fix7 nI cc ts qs cs la bm nt hcc hts hqs hcs hla hbm hnt]
  show saveProgress nI ((progObj7 cc ts qs cs la bm nt).setField "lastActivity" (.num nI))
      = some (progObj7 cc ts qs cs (.num nI) bm nt)
  rw [show (progObj7 cc ts qs cs la bm nt).setField "lastActivity" (.num nI)
      = progObj7 cc ts qs cs (.num nI) bm nt from rfl]
  unfold saveProgress
  rw [validate_fix7 nI cc ts qs cs (.num nI) bm nt hcc hts hqs hcs rfl hbm hnt]

/-- C8: for every stored progress state (a value of the validated shape,
which is what the app ever writes), importing the exported string restores
`completedChapters`, `completedSections`, `timeSpent`, `quizScores`,
`bookmarks` and `notes` unchanged, and re-stamps `lastActivity` with the
import-time clock (the old `exportTimestamp` is stripped and rewritten on
the next export). -/
theorem progress_export_import_roundtrip (st : Json) (h : ProgressShape st = true)
    (nL nE nI : Int) (exportDate : String) :
    ∃ v', importProgressData nI
        (.ok (exportProgressData nL nE exportDate (.val st))) = some v'
      ∧ v'.getField "completedChapters" = st.getField "completedChapters"
      ∧ v'.getField "completedSections" = st.getField "completedSections"
      ∧ v'.getField "timeSpent" = st.getField "timeSpent"
      ∧ v'.getField "quizScores" = st.getField "quizScores"
      ∧ v'.getField "bookmarks" = st.getField "bookmarks"
      ∧ v'.getField "notes" = st.getField "notes"
      ∧ v'.getField "lastActivity" = some (.num nI) := by
  unfold ProgressShape at h
  split at h
  · rename_i cc ts qs cs la bm nt
    simp only [Bool.and_eq_true] at h
    obtain ⟨⟨⟨⟨⟨⟨hcc, hts⟩, hqs⟩, hcs⟩, hla⟩, hbm⟩, hnt⟩ := h
    obtain ⟨x, hxeq⟩ : ∃ x, la = Json.num x := by
      cases la <;> simp [Json.isNum] at hla
      exact ⟨_, rfl⟩
    subst hxeq
    obtain ⟨lcs, hceq⟩ : ∃ l, cs = Json.arr l := by
      cases cs <;> simp [strArrJ] at hcs
      exact ⟨_, rfl⟩
    subst hceq
    have hxload : ∃ y : Int,
        loadProgress nL (.val (progObj7 cc ts qs (.arr lcs) (.num x) bm nt))
          = progObj7 cc ts qs (.arr lcs) (.num y) bm nt := by
      by_cases hx0 : x = 0
      · subst hx0
        refine ⟨nL, ?_⟩
        dsimp only [loadProgress]
        rw [validate_fix7 nL cc ts qs (.arr lcs) (.num 0) bm nt hcc hts hqs hcs rfl hbm hnt]
        rfl
      · refine ⟨x, ?_⟩
        dsimp only [loadProgress]
        rw [validate_fix7 nL cc ts qs (.arr lcs) (.num x) bm nt hcc hts hqs hcs rfl hbm hnt]
        dsimp only
        have h1 : fieldTruthy (progObj7 cc ts qs (.arr lcs) (.num x) bm nt)
            "lastActivity" = true := by
          show (Json.num x).truthy = true
          simp [Json.truthy, hx0]
        have h2 : fieldTruthy (progObj7 cc ts qs (.arr lcs) (.num x) bm nt)
            "completedSections" = true := rfl
        rw [show (progObj7 cc ts qs (.arr lcs) (.num x) bm nt).truthy = true from rfl,
          h1, h2]
        simp
    obtain ⟨y, hy⟩ := hxload
    refine ⟨progObj7 cc ts qs (.arr lcs) (.num nI) bm nt, ?_, rfl, rfl, rfl, rfl, rfl, rfl, rfl⟩
    show importProgressData nI (.ok (exportProgressData nL nE exportDate
        (.val (progObj7 cc ts qs (.arr lcs) (.num x) bm nt))))
      = some (progObj7 cc ts qs (.arr lcs) (.num nI) bm nt)
    unfold exportProgressData
    rw [hy]
    exact export_import_core7 nE nI
      (keyCount ((progObj7 cc ts qs (.arr lcs) (.num y) bm nt).getField "timeSpent"))
      exportDate cc ts qs (.arr lcs) (.num y) bm nt hcc hts hqs hcs rfl hbm hnt
  · rename_i cc ts qs cs la et bm nt
    simp only [Bool.and_eq_true] at h
    obtain ⟨⟨⟨⟨⟨⟨⟨hcc, hts⟩, hqs⟩, hcs⟩, hla⟩, het⟩, hbm⟩, hnt⟩ := h
    obtain ⟨x, hxeq⟩ : ∃ x, la = Json.num x := by
      cases la <;> simp [Json.isNum] at hla
      exact ⟨_, rfl⟩
    subst hxeq
    obtain ⟨lcs, hceq⟩ : ∃ l, cs = Json.arr l := by
      cases cs <;> simp [strArrJ] at hcs
      exact ⟨_, rfl⟩
    subst hceq
    have hxload : ∃ y : Int,
        loadProgress nL (.val (progObj8 cc ts qs (.arr lcs) (.num x) et bm nt))
          = progObj8 cc ts qs (.arr lcs) (.num y) et bm nt := by
      by_cases hx0 : x = 0
      · subst hx0
        refine ⟨nL, ?_⟩
        dsimp only [loadProgress]
        rw [validate_fix8 nL cc ts qs (.arr lcs) (.num 0) et bm nt
          hcc hts hqs hcs rfl het hbm hnt]
        rfl
      · refine ⟨x, ?_⟩
        dsimp only [loadProgress]
        rw [validate_fix8 nL cc ts qs (.arr lcs) (.num x) et bm nt
          hcc hts hqs hcs rfl het hbm hnt]
        dsimp only
        have h1 : fieldTruthy (progObj8 cc ts qs (.arr lcs) (.num x) et bm nt)
            "lastActivity" = true := by
          show (Json.num x).truthy = true
          simp [Json.truthy, hx0]
        have h2 : fieldTruthy (progObj8 cc ts qs (.arr lcs) (.num x) et bm nt)
            "completedSections" = true := rfl
        rw [show (progObj8 cc ts qs (.arr lcs) (.num x) et bm nt).truthy = true from rfl,
          h1, h2]
        simp
    obtain ⟨y, hy⟩ := hxload
    refine ⟨progObj7 cc ts qs (.arr lcs) (.num nI) bm nt, ?_, rfl, rfl, rfl, rfl, rfl, rfl, rfl⟩
    show importProgressData nI (.ok (exportProgressData nL nE exportDate
        (.val (progObj8 cc ts qs (.arr lcs) (.num x) et bm nt))))
      = some (progObj7 cc ts qs (.arr lcs) (.num nI) bm nt)
    unfold exportProgressData
    rw [hy]
    exact export_import_core8 nE nI
      (keyCount ((progObj8 cc ts qs (.arr lcs) (.num y) et bm nt).getField "timeSpent"))
      exportDate cc ts qs (.arr lcs) (.num y) et bm nt hcc hts hqs hcs rfl hbm hnt
  · exact absurd h (by simp)

/-- C8 witness: a concrete stored state round-trips with its six core
fields intact. -/
theorem progress_export_import_roundtrip_witness :
    ∃ v', importProgressData 123
        (.ok (exportProgressData 5 6 "2025-12-21T00:00:00.000Z" (.val sampleStored)))
          = some v'
      ∧ v'.getField "completedChapters" = sampleStored.getField "completedChapters"
      ∧ v'.getField "completedSections" = sampleStored.getField "completedSections"
      ∧ v'.getField "timeSpent" = sampleStored.getField "timeSpent"
      ∧ v'.getField "quizScores" = sampleStored.getField "quizScores"
      ∧ v'.getField "bookmarks" = sampleStored.getField "bookmarks"
      ∧ v'.getField "notes" = sampleStored.getField "notes"
      ∧ v'.getField "lastActivity" = some (.num 123) :=
  progress_export_import_roundtrip sampleStored (by decide) 5 6 123 "2025-12-21T00:00:00.000Z"

/-- C7 witness: budget 12 on a concrete two-sentence chapter text. -/
theorem chunker_bounded_and_lossless_witness :
    (∀ c ∈ Chunker.chunk 12 "ML is fun. Very fun!".toList "ch1", c.text.length ≤ 12)
      ∧ ((Chunker.chunk 12 "ML is fun. Very fun!".toList "ch1").map
          (fun c => c.text)).flatten = "ML is fun. Very fun!".toList :=
  chunker_bounded_and_lossless 12 (by decide) "ML is fun. Very fun!".toList "ch1"

end Book
